import Mathlib

/-!
Verification of the matching and diffing engine of the `httpmock` package
(shawalli/mockserver): a shallow embedding in Lean 4 of the Go sources
`mock.go` and `request.go`, together with theorems about the embedded
functions.

Modelling conventions:

* Go byte slices (`[]byte`) and strings are modelled as Lean `String`s.
  A `nil` slice and an empty slice are indistinguishable to every embedded
  function (only `len` and content equality are consulted), so both map
  to `""`.
* `url.URL` is modelled by the structure `URL` below, carrying every field
  of the Go struct that any embedded function reads.  Percent-escaping is
  modelled as the identity: no embedded comparison unescapes, and all
  concrete inputs used in theorems are escape-free.
* The diff functions of `request.go` return `(string, int)` in Go; the
  string is a human-readable report that never influences control flow
  (only the integer difference counts are ever branched on), so the
  embedded diff functions return only the count.
* The received `http.Request` body is a single-read stream in Go.
  `SafeReadBody` buffers it and replaces the stream with an equivalent
  re-readable one; this is modelled twice: a small stream model
  (`BodyStream`, `StreamHttpRequest`, `SafeReadBody`, `Request.diffS`)
  that threads the stream state exactly, and a pure model (`HttpRequest`)
  whose `body : Option String` holds the bytes a successful read yields
  (`none` models a stream whose read fails).  The lemma `diffS_fst_eq_diff`
  shows the pure model agrees with the stream model on readable bodies.
* Go `map` iteration order is unobservable in the embedded functions (the
  difference counts never depend on it), so `url.Values` is modelled as an
  association list in first-appearance order.
* User-supplied request matchers (`RequestMatcher`) return a report string
  and a difference count; they are modelled as pure functions
  `HttpRequest → Nat` (the report string is dropped, as above).
-/

namespace Httpmock

/-- Model of Go `net/url.URL`: all fields read by the engine.  `user`
models the `User *url.Userinfo` field as an optional rendered string
(`none` is Go `nil`; every concrete input below has no user info). -/
structure URL where
  scheme : String := ""
  -- the Go field `Opaque` (named `opaq` here since its Go name is a Lean keyword)
  opaq : String := ""
  user : Option String := none
  host : String := ""
  path : String := ""
  rawPath : String := ""
  omitHost : Bool := false
  forceQuery : Bool := false
  rawQuery : String := ""
  fragment : String := ""
  rawFragment : String := ""
deriving DecidableEq, Repr

/-- Model of Go `url.Values` (`map[string][]string`), as an association
list in first-appearance order.  Keys are unique by construction of
`parseQuery`/`filterValues`. -/
abbrev Values := List (String × List String)

/-- Map lookup on `Values` (Go `m[k]`, with `none` for a missing key). -/
def valuesGet (vs : Values) (k : String) : Option (List String) :=
  (vs.find? (fun kv => kv.1 == k)).map (fun kv => kv.2)

/-- Go `m[key] = append(m[key], value)`: append `v` to the values of `k`,
creating the key if absent. -/
def valuesAdd : Values → String → String → Values
  | [], k, v => [(k, [v])]
  | (k0, ws) :: rest, k, v =>
    if k0 = k then (k0, ws ++ [v]) :: rest else (k0, ws) :: valuesAdd rest k v

/-- Split a character list at every occurrence of `c` (the segments Go's
repeated `strings.Cut(query, "&")` produces, including empty segments). -/
def splitOnChar (c : Char) : List Char → List (List Char)
  | [] => [[]]
  | x :: xs =>
    let r := splitOnChar c xs
    if x = c then [] :: r
    else
      match r with
      | [] => [[x]]
      | y :: ys => (x :: y) :: ys

/-- Model of Go `net/url.ParseQuery` as used by `URL.Query()` (errors are
discarded by `Query()`): split on `&`, skip segments containing `;` and
empty segments, cut each segment at the first `=`.  `QueryUnescape` is
modelled as the identity (see the module comment). -/
def parseQuery (query : String) : Values :=
  (splitOnChar '&' query.data).foldl
    (fun m seg =>
      if seg.contains ';' then m
      else if seg = [] then m
      else
        valuesAdd m
          (String.mk (seg.takeWhile (fun ch => ch ≠ '=')))
          (String.mk ((seg.dropWhile (fun ch => ch ≠ '=')).drop 1)))
    []

/-- Lexicographic order on character lists.  Go compares strings in byte
order; UTF-8 byte order coincides with code-point order, so comparing
`Char`s is the same order. -/
def leChars : List Char → List Char → Bool
  | [], _ => true
  | _ :: _, [] => false
  | a :: as, b :: bs =>
    if a < b then true
    else if b < a then false
    else leChars as bs

/-- The Go string order `a < b`, made non-strict (sorting is unaffected:
only equal strings are related both ways). -/
def leString (a b : String) : Bool := leChars a.data b.data

/-- Sorted copy of a value slice: models `cmpopts.SortSlices` with the
string order. -/
def sortStrings (l : List String) : List String :=
  l.insertionSort (fun a b => leString a b = true)

/-- Model of `cmp.Equal` on two `url.Values` under `cmpoptSortMaps` and
`cmpoptSortSlices`: the key sets coincide and, for each key, the sorted
value slices are equal. -/
def valuesEqualCmp (a b : Values) : Bool :=
  (a.all fun kv =>
    match valuesGet b kv.1 with
    | some ws => sortStrings kv.2 == sortStrings ws
    | none => false)
  && (b.all fun kv => (valuesGet a kv.1).isSome)

/-- The received query filtered down to the expectation's keys:
`for k := range rQuery { if v, ok := oQuery[k]; ok { oFilteredQuery[k] = v } }`. -/
def filterValues (rQuery oQuery : Values) : Values :=
  rQuery.filterMap (fun kv => (valuesGet oQuery kv.1).map (fun ws => (kv.1, ws)))

/-- Equality of two `url.URL` values under `cmp.Equal` with
`cmpoptIgnoreURLRawQuery` and `cmpoptIgnoreURLUnexportedFields`: every
field except `RawQuery` is compared (`url.URL` has no unexported fields,
so the second option ignores nothing). -/
def urlEqualIgnoringRawQuery (a b : URL) : Bool :=
  a.scheme == b.scheme && a.opaq == b.opaq && a.user == b.user &&
  a.host == b.host && a.path == b.path && a.rawPath == b.rawPath &&
  a.omitHost == b.omitHost && a.forceQuery == b.forceQuery &&
  a.fragment == b.fragment && a.rawFragment == b.rawFragment

/-- Whether `u.String()` renders as the empty string.  Following
`net/url`'s `URL.String`: the rendering is empty exactly when the scheme,
opaque part, user info, host, path, query (`?` from `ForceQuery` or
`RawQuery`) and fragment sections are all absent. -/
def URL.renderIsEmpty (u : URL) : Bool :=
  u.scheme == "" && u.opaq == "" && u.user == none && u.host == "" &&
  u.path == "" && !u.forceQuery && u.rawQuery == "" && u.fragment == ""

/-- Query parameters of a URL: Go `u.Query()`. -/
def URL.query (u : URL) : Values := parseQuery u.rawQuery

/-- The `AnyMethod` wildcard sentinel of `request.go`. -/
def AnyMethod : String := "httpmock.AnyMethod"

/-- The `AnyBody` wildcard sentinel of `request.go` (a byte slice in Go,
compared via `string(...)`). -/
def AnyBody : String := "httpmock.AnyBody"

/-- Model of the parts of a received Go `http.Request` the engine reads.
`body` holds the bytes that reading the body stream yields, with `none`
modelling a stream whose read fails (see the module comment and the
stream model below). -/
structure HttpRequest where
  method : String := ""
  url : URL := {}
  body : Option String := some ""
deriving DecidableEq, Repr

/-- Model of `Response` (`response.go`): the canned response.  The parent
pointer, and the custom `writer` callback of `RespondUsing`, are omitted:
no embedded function reads them. -/
structure Response where
  statusCode : Int := 0
  header : List (String × List String) := []
  body : String := ""
deriving DecidableEq, Repr

/-- Model of `Request` (`request.go`): a registered expectation, or a
logged received-request snapshot.  The `parent` back-pointer is omitted;
`matchers` drop their report strings (module comment). -/
structure Request where
  method : String := ""
  url : URL := {}
  body : String := ""
  matchers : List (HttpRequest → Nat) := []
  response : Option Response := none
  repeatability : Int := 0
  totalRequests : Int := 0

/-- Embedding of `diffMethod` (`request.go`): difference count between an expectation's
method and a received method.  Passes when the expectation method is the
`AnyMethod` wildcard and the received method is non-empty, or when the two
methods are equal and non-empty. -/
def Request.diffMethod (r : Request) (received : HttpRequest) : Nat :=
  if (r.method = AnyMethod ∧ received.method ≠ "") ∨
     (r.method = received.method ∧ r.method ≠ "") then 0 else 1

/-- Embedding of `diffQuery` (`request.go`): if the expectation declares no query
parameters, contribute nothing; otherwise filter the received query down
to the expectation's keys and compare with `cmp.Equal` under sorted maps
and sorted value slices, contributing one difference on inequality. -/
def Request.diffQuery (r : Request) (received : HttpRequest) : Nat :=
  if r.url.query = [] then 0
  else if valuesEqualCmp r.url.query (filterValues r.url.query received.url.query)
  then 0 else 1

/-- Embedding of `diffURL` (`request.go`): fail with one difference when either side
renders as the empty string; otherwise pass exactly when the two `url.URL`
structs are `cmp.Equal` ignoring `RawQuery` and the query comparator
reports zero differences, contributing one difference otherwise.  (The
query sub-count is folded into this single pass/fail decision and is not
added separately.) -/
def Request.diffURL (r : Request) (received : HttpRequest) : Nat :=
  if r.url.renderIsEmpty || received.url.renderIsEmpty then 1
  else if urlEqualIgnoringRawQuery r.url received.url && r.diffQuery received == 0
  then 0 else 1

/-- Core of `diffBody` (`request.go`) after the received body has been
read successfully: the `AnyBody` wildcard always passes; otherwise both
empty passes, exactly one empty fails, and two non-empty bodies are
compared byte-exactly. -/
def Request.diffBodyBytes (r : Request) (otherBody : String) : Nat :=
  if r.body = AnyBody then 0
  else if r.body.length = 0 ∧ otherBody.length = 0 then 0
  else if (r.body.length = 0 ∧ 0 < otherBody.length) ∨
          (0 < r.body.length ∧ otherBody.length = 0) ∨
          r.body ≠ otherBody then 1
  else 0

/-- Embedding of `diffBody` (`request.go`): read the received body via `SafeReadBody`
(a failed read contributes one difference with a sentinel diagnostic),
then compare as in `diffBodyBytes`. -/
def Request.diffBody (r : Request) (received : HttpRequest) : Nat :=
  match received.body with
  | none => 1
  | some otherBody => r.diffBodyBytes otherBody

/-- Embedding of `diff` (`request.go`): the aggregate comparator.  Method, URL (which
internally runs the query comparator) and body in that order, then every
registered matcher in registration order, summing all difference counts. -/
def Request.diff (r : Request) (received : HttpRequest) : Nat :=
  r.diffMethod received + r.diffURL received + r.diffBody received +
    r.matchers.foldl (fun acc fn => acc + fn received) 0

/-- Model of `Mock` (`mock.go`): the registered expectations and the log
of received requests.  The test sink and the mutex are omitted (the
engine is modelled as sequential; failures are surfaced as values by
`Mock.Requested` below). -/
structure Mock where
  ExpectedRequests : List Request := []
  Requests : List Request := []

/-- The loop of `findExpectedRequest` (`mock.go`), with the running index
`i` and the `expected` accumulator made explicit: skip expectations with
a non-zero diff, return the first zero-diff expectation with
`repeatability > -1` immediately, remember the last zero-diff expectation
otherwise. -/
def findExpectedRequestAux (actual : HttpRequest) :
    List Request → Int → Option Request → Int × Option Request
  | [], _, expected => (-1, expected)
  | er :: rest, i, expected =>
    if er.diff actual ≠ 0 then findExpectedRequestAux actual rest (i + 1) expected
    else if -1 < er.repeatability then (i, some er)
    else findExpectedRequestAux actual rest (i + 1) (some er)

/-- Embedding of `findExpectedRequest` (`mock.go`): first exact (zero-difference,
not-exhausted) match, or `(-1, last zero-difference match)`, or
`(-1, none)`. -/
def Mock.findExpectedRequest (m : Mock) (actual : HttpRequest) : Int × Option Request :=
  findExpectedRequestAux actual m.ExpectedRequests 0 none

/-- Model of `matchCandidate` (`mock.go`); the `mismatch` report string is
omitted (module comment).  The Go zero value has a nil `request`. -/
structure matchCandidate where
  request : Option Request := none
  diffCount : Nat := 0

/-- Embedding of `matchCandidate.isBetterMatchThan` (`mock.go`): nil loses to anything,
anything beats nil, lower diff count wins, and on equal diff counts a
candidate with `repeatability > 0` beats one without. -/
def matchCandidate.isBetterMatchThan (mc other : matchCandidate) : Bool :=
  match mc.request, other.request with
  | none, _ => false
  | some _, none => true
  | some mcReq, some otherReq =>
    if other.diffCount < mc.diffCount then false
    else if mc.diffCount < other.diffCount then true
    else if 0 < mcReq.repeatability ∧ otherReq.repeatability ≤ 0 then true
    else false

/-- Embedding of `findClosestRequest` (`mock.go`): fold every expectation into a
running best candidate, seeded with the zero `matchCandidate`.  The
accompanying mismatch report is omitted (module comment). -/
def Mock.findClosestRequest (m : Mock) (received : HttpRequest) : Option Request :=
  (m.ExpectedRequests.foldl
    (fun bestMatch expected =>
      let tempCandidate : matchCandidate :=
        { request := some expected, diffCount := expected.diff received }
      if tempCandidate.isBetterMatchThan bestMatch then tempCandidate else bestMatch)
    {}).request

/-- The failure modes of `Mock.Requested`, which in Go funnel into
`Mock.fail` (test abort or panic).  `exhausted` carries the
`totalRequests` count printed in the over-called message. -/
inductive RequestedFailure where
  | readBodyFailed
  | exhausted (totalRequests : Int)
  | unexpectedWithClosest
  | unexpected
deriving DecidableEq, Repr

/-- Embedding of `Requested` (`mock.go`): buffer the received body, search for an
exact match, and on success apply the repeatability transition, bump
`totalRequests`, log a clean snapshot (with a copy of the response) and
return the canned response.  The three fatal paths are returned as
`RequestedFailure` values. -/
def Mock.Requested (m : Mock) (received : HttpRequest) :
    Except RequestedFailure (Mock × Option Response) :=
  match received.body with
  | none => .error .readBodyFailed
  | some receivedBody =>
    let found := (m.findExpectedRequest received).1
    match (m.findExpectedRequest received).2 with
    | none =>
      -- `found < 0` and no exhausted candidate: unexpected request
      match m.findClosestRequest received with
      | some _ => .error .unexpectedWithClosest
      | none => .error .unexpected
    | some expected =>
      if found < 0 then .error (.exhausted expected.totalRequests)
      else
        let expected2 : Request :=
          { expected with
            repeatability :=
              if expected.repeatability = 1 then -1
              else if 1 < expected.repeatability then expected.repeatability - 1
              else expected.repeatability,
            totalRequests := expected.totalRequests + 1 }
        let newRequest : Request :=
          { method := received.method, url := received.url, body := receivedBody,
            response := expected.response }
        .ok ({ ExpectedRequests := m.ExpectedRequests.set found.toNat expected2,
               Requests := m.Requests ++ [newRequest] },
             expected.response)

/-- Iterated consumption: feed the same received request to the mock `n`
times, threading the mock state, stopping at the first failure. -/
def iterateRequested (received : HttpRequest) : Nat → Mock → Except RequestedFailure Mock
  | 0, m => .ok m
  | n + 1, m =>
    match m.Requested received with
    | .ok (m2, _) => iterateRequested received n m2
    | .error e => .error e

/-- Embedding of `checkWasRequested` (`mock.go`): whether some logged received request
diffs to zero against a synthetic request built from the given method, URL
and body. -/
def Mock.checkWasRequested (m : Mock) (method : String) (u : URL) (body : String) : Bool :=
  m.Requests.any (fun actual =>
    actual.diff { method := method, url := u, body := some body } == 0)

/-- Embedding of `checkExpectation` (`mock.go`): an expectation fails the check when it
was never consumed and nothing in the log matches it, or when it still
owes uses (`repeatability > 0`).  The accompanying PASS/FAIL report string
is omitted (module comment). -/
def Mock.checkExpectation (m : Mock) (expected : Request) : Bool :=
  if (m.checkWasRequested expected.method expected.url expected.body = false ∧
      expected.totalRequests = 0) ∨ 0 < expected.repeatability
  then false else true

/-- Embedding of `AssertExpectations` (`mock.go`): count the expectations failing
`checkExpectation`; the assertion passes exactly when that count is
zero. -/
def Mock.AssertExpectations (m : Mock) : Bool :=
  m.ExpectedRequests.foldl
    (fun acc er => if m.checkExpectation er then acc else acc + 1) 0 == 0

/-- A single-read body stream: `some s` is an unconsumed stream holding
bytes `s` (reading consumes them), `none` is a stream whose read fails.
This models the `io.ReadCloser` handed to `SafeReadBody`. -/
structure BodyStream where
  data : Option String
deriving DecidableEq, Repr

/-- Reading a `BodyStream` to the end (`io.ReadAll`): yields the held
bytes and leaves the stream consumed (a second read yields `""`), or
fails. -/
def BodyStream.readAll : BodyStream → Option (String × BodyStream)
  | ⟨none⟩ => none
  | ⟨some s⟩ => some (s, ⟨some ""⟩)

/-- A received request whose body is still a stream, for the stateful
body-buffering model. -/
structure StreamHttpRequest where
  method : String := ""
  url : URL := {}
  body : BodyStream

/-- View of a `StreamHttpRequest` as the pure model: the body field holds
whatever a full read of the stream would currently yield. -/
def StreamHttpRequest.toPure (sr : StreamHttpRequest) : HttpRequest :=
  { method := sr.method, url := sr.url, body := sr.body.data }

/-- Embedding of `SafeReadBody` (`request.go`): read the request body in full and
replace the consumed stream with a fresh buffer holding the same bytes,
so that it may be read again afterward; a read failure is returned
without replacing the stream. -/
def SafeReadBody (received : StreamHttpRequest) : Option (String × StreamHttpRequest) :=
  match received.body.readAll with
  | none => none
  | some (body, _) => some (body, { received with body := ⟨some body⟩ })

/-- The body comparator `diffBody` in the stateful stream model: runs `SafeReadBody` and
threads the updated request (on a failed read the body is left untouched
and one difference is reported, as in Go). -/
def Request.diffBodyS (r : Request) (received : StreamHttpRequest) :
    Nat × StreamHttpRequest :=
  match SafeReadBody received with
  | none => (1, received)
  | some (otherBody, received2) => (r.diffBodyBytes otherBody, received2)

/-- The aggregate `diff` in the stateful stream model: method and URL
comparators read no body; the body comparator threads the stream; the
matchers run on the request as left by the body comparator. -/
def Request.diffS (r : Request) (received : StreamHttpRequest) :
    Nat × StreamHttpRequest :=
  let dMethod := r.diffMethod received.toPure
  let dURL := r.diffURL received.toPure
  let bodyResult := r.diffBodyS received
  let dMatchers := r.matchers.foldl (fun acc fn => acc + fn bodyResult.2.toPure) 0
  (dMethod + dURL + bodyResult.1 + dMatchers, bodyResult.2)

/-! Theorems about the embedded engine.  First, supporting lemmas about
the value-slice order and the query filtering. -/

/-- Characterization of the head step of `leChars`. -/
theorem leChars_cons (a b : Char) (as bs : List Char) :
    leChars (a :: as) (b :: bs) = true ↔ a < b ∨ (a = b ∧ leChars as bs = true) := by
  rw [leChars]
  rcases lt_trichotomy a b with h | h | h
  · simp [h]
  · subst h
    simp [lt_irrefl]
  · simp [h, lt_asymm h, ne_of_gt h]

theorem leChars_total : ∀ a b : List Char, leChars a b = true ∨ leChars b a = true
  | [], _ => by left; rfl
  | _ :: _, [] => by right; rfl
  | a :: as, b :: bs => by
    rw [leChars_cons, leChars_cons]
    rcases lt_trichotomy a b with h | h | h
    · left; left; exact h
    · subst h
      rcases leChars_total as bs with ih | ih
      · left; right; exact ⟨rfl, ih⟩
      · right; right; exact ⟨rfl, ih⟩
    · right; left; exact h

theorem leChars_trans :
    ∀ a b c : List Char, leChars a b = true → leChars b c = true → leChars a c = true
  | [], _, _, _, _ => rfl
  | _ :: _, [], _, h, _ => by simp [leChars] at h
  | _ :: _, _ :: _, [], _, h => by simp [leChars] at h
  | a :: as, b :: bs, c :: cs, hab, hbc => by
    rw [leChars_cons] at hab hbc ⊢
    rcases hab with hab | ⟨hab, tab⟩
    · rcases hbc with hbc | ⟨hbc, _⟩
      · exact Or.inl (lt_trans hab hbc)
      · exact Or.inl (hbc ▸ hab)
    · rcases hbc with hbc | ⟨hbc, tbc⟩
      · exact Or.inl (hab ▸ hbc)
      · exact Or.inr ⟨hab.trans hbc, leChars_trans as bs cs tab tbc⟩

theorem leChars_antisymm :
    ∀ a b : List Char, leChars a b = true → leChars b a = true → a = b
  | [], [], _, _ => rfl
  | [], _ :: _, _, h => by simp [leChars] at h
  | _ :: _, [], h, _ => by simp [leChars] at h
  | a :: as, b :: bs, hab, hba => by
    rw [leChars_cons] at hab hba
    rcases hab with hab | ⟨hab, tab⟩
    · rcases hba with hba | ⟨hba, _⟩
      · exact absurd hba (lt_asymm hab)
      · exact absurd (hba ▸ hab) (lt_irrefl b)
    · rcases hba with hba | ⟨_, tba⟩
      · exact absurd (hab ▸ hba) (lt_irrefl b)
      · rw [hab, leChars_antisymm as bs tab tba]

theorem leString_total (a b : String) : leString a b = true ∨ leString b a = true :=
  leChars_total a.data b.data

theorem leString_trans (a b c : String) :
    leString a b = true → leString b c = true → leString a c = true :=
  leChars_trans a.data b.data c.data

theorem leString_antisymm (a b : String) :
    leString a b = true → leString b a = true → a = b := by
  intro hab hba
  cases a with
  | mk da =>
    cases b with
    | mk db =>
      rw [leChars_antisymm da db hab hba]

instance leStringIsTotal : IsTotal String (fun a b => leString a b = true) :=
  ⟨leString_total⟩

instance leStringIsTrans : IsTrans String (fun a b => leString a b = true) :=
  ⟨leString_trans⟩

instance leStringIsAntisymm : IsAntisymm String (fun a b => leString a b = true) :=
  ⟨leString_antisymm⟩

/-- Two value slices have equal sorted copies exactly when they are
permutations of each other: `cmpopts.SortSlices` equality is multiset
equality. -/
theorem sortStrings_eq_iff (a b : List String) :
    sortStrings a = sortStrings b ↔ a.Perm b := by
  constructor
  · intro h
    have ha := List.perm_insertionSort (fun x y : String => leString x y = true) a
    have hb := List.perm_insertionSort (fun x y : String => leString x y = true) b
    have h2 : (sortStrings a).Perm b := h ▸ hb
    exact ha.symm.trans h2
  · intro hp
    have hsa := List.sorted_insertionSort (fun x y : String => leString x y = true) a
    have hsb := List.sorted_insertionSort (fun x y : String => leString x y = true) b
    have hperm : (sortStrings a).Perm (sortStrings b) :=
      (List.perm_insertionSort _ a).trans
        (hp.trans (List.perm_insertionSort _ b).symm)
    exact List.eq_of_perm_of_sorted hperm hsa hsb

theorem valuesGet_cons (k1 : String) (ws : List String) (t : Values) (k : String) :
    valuesGet ((k1, ws) :: t) k = if k1 = k then some ws else valuesGet t k := by
  by_cases h : k1 = k <;> simp [valuesGet, List.find?_cons, h]

theorem valuesGet_isSome_of_mem {vs : Values} {kv : String × List String} (h : kv ∈ vs) :
    (valuesGet vs kv.1).isSome := by
  induction vs with
  | nil => cases h
  | cons hd tl ih =>
    rcases List.mem_cons.mp h with h1 | h1
    · subst h1
      simp [valuesGet, List.find?_cons]
    · by_cases he : hd.1 = kv.1
      · simp [valuesGet, List.find?_cons, he]
      · simpa [valuesGet, List.find?_cons, he] using ih h1

/-- Lookup in the filtered query: a key of the expectation query looks up
to the received query's entry, and any other key is absent. -/
theorem filterValues_get (oq : Values) (k : String) (rq : Values) :
    valuesGet (filterValues rq oq) k =
      if k ∈ rq.map Prod.fst then valuesGet oq k else none := by
  induction rq with
  | nil => simp [filterValues, valuesGet]
  | cons kv rest ih =>
    simp only [filterValues, List.filterMap_cons] at ih ⊢
    cases hv : valuesGet oq kv.1 with
    | none =>
      simp only [hv, Option.map_none']
      rw [ih]
      by_cases hk : k = kv.1
      · subst hk
        by_cases hm : kv.1 ∈ rest.map Prod.fst <;> simp [hm, hv]
      · by_cases hm : k ∈ rest.map Prod.fst <;>
          simp [List.map_cons, List.mem_cons, hk, hm]
    | some ws =>
      simp only [hv, Option.map_some']
      rw [valuesGet_cons]
      by_cases hk : kv.1 = k
      · subst hk
        simp [hv]
      · rw [if_neg hk, ih]
        have hk2 : ¬k = kv.1 := fun hh => hk hh.symm
        by_cases hm : k ∈ rest.map Prod.fst <;>
          simp [List.map_cons, List.mem_cons, hk2, hm]

/-- Claim C3, amended: the query comparator contributes at most one
difference; it contributes zero exactly when the expectation's URL
declares no query parameters, or every declared key is present in the
received query with a value list that is a permutation of (equal as a
multiset to — order-insensitive but multiplicity-sensitive) the declared
one.  Extra received keys never matter. -/
theorem c3_amended (r : Request) (received : HttpRequest) :
    r.diffQuery received ≤ 1 ∧
    (r.diffQuery received = 0 ↔
      r.url.query = [] ∨
        ∀ kv ∈ r.url.query, ∃ ws,
          valuesGet received.url.query kv.1 = some ws ∧ kv.2.Perm ws) := by
  rw [Request.diffQuery]
  by_cases hrq : r.url.query = []
  · simp [hrq]
  · rw [if_neg hrq]
    have hbridge : valuesEqualCmp r.url.query
        (filterValues r.url.query received.url.query) = true ↔
        ∀ kv ∈ r.url.query, ∃ ws,
          valuesGet received.url.query kv.1 = some ws ∧ kv.2.Perm ws := by
      rw [valuesEqualCmp, Bool.and_eq_true, List.all_eq_true, List.all_eq_true]
      constructor
      · rintro ⟨h1, _⟩ kv hkv
        have hmem : kv.1 ∈ r.url.query.map Prod.fst :=
          List.mem_map_of_mem Prod.fst hkv
        have h2 := h1 kv hkv
        rw [filterValues_get, if_pos hmem] at h2
        cases hw : valuesGet received.url.query kv.1 with
        | none => rw [hw] at h2; cases h2
        | some ws =>
          refine ⟨ws, rfl, ?_⟩
          rw [hw] at h2
          exact (sortStrings_eq_iff kv.2 ws).mp (by simpa using h2)
      · intro h
        constructor
        · intro kv hkv
          have hmem : kv.1 ∈ r.url.query.map Prod.fst :=
            List.mem_map_of_mem Prod.fst hkv
          rcases h kv hkv with ⟨ws, hw, hperm⟩
          rw [filterValues_get, if_pos hmem, hw]
          simpa using (sortStrings_eq_iff kv.2 ws).mpr hperm
        · intro kv hkv
          rcases List.mem_filterMap.mp hkv with ⟨x, hx, hfx⟩
          rcases Option.map_eq_some'.mp hfx with ⟨ws, hox, hkveq⟩
          rw [← hkveq]
          exact @valuesGet_isSome_of_mem r.url.query x hx
    constructor
    · split <;> omega
    · constructor
      · intro h0
        right
        rw [← hbridge]
        by_contra hne
        simp only [Bool.not_eq_true] at hne
        rw [if_neg (by simp [hne])] at h0
        cases h0
      · intro h
        rcases h with h | h
        · exact absurd h hrq
        · rw [if_pos (by simp [hbridge.mpr h])]


/-- The failure counter of `AssertExpectations` is zero exactly when the
accumulator started at zero and every element passes the check. -/
theorem foldl_count_eq_zero (p : Request → Bool) (l : List Request) :
    ∀ acc : Nat,
      l.foldl (fun a er => if p er then a else a + 1) acc = 0 ↔
        acc = 0 ∧ ∀ er ∈ l, p er = true := by
  induction l with
  | nil => intro acc; simp
  | cons hd tl ih =>
    intro acc
    rw [List.foldl_cons]
    by_cases hp : p hd = true
    · rw [if_pos hp, ih]
      simp [hp]
    · rw [if_neg hp, ih]
      constructor
      · rintro ⟨h1, _⟩
        exact absurd h1 (Nat.succ_ne_zero acc)
      · rintro ⟨_, h2⟩
        exact absurd (h2 hd (List.mem_cons_self hd tl)) hp

/-- The check `checkExpectation` passes exactly when the expectation is satisfied in
the sense of claim C5. -/
theorem checkExpectation_eq_true_iff (m : Mock) (er : Request) :
    m.checkExpectation er = true ↔
      ¬((er.totalRequests = 0 ∧
          ¬∃ a ∈ m.Requests,
            a.diff { method := er.method, url := er.url, body := some er.body } = 0) ∨
        0 < er.repeatability) := by
  have hreq : m.checkWasRequested er.method er.url er.body = true ↔
      ∃ a ∈ m.Requests,
        a.diff { method := er.method, url := er.url, body := some er.body } = 0 := by
    rw [Mock.checkWasRequested, List.any_eq_true]
    constructor
    · rintro ⟨a, ha, hd⟩
      exact ⟨a, ha, by simpa using hd⟩
    · rintro ⟨a, ha, hd⟩
      exact ⟨a, ha, by simpa using hd⟩
  have hcond :
      ((m.checkWasRequested er.method er.url er.body = false ∧ er.totalRequests = 0) ∨
        0 < er.repeatability) ↔
      ((er.totalRequests = 0 ∧
          ¬∃ a ∈ m.Requests,
            a.diff { method := er.method, url := er.url, body := some er.body } = 0) ∨
        0 < er.repeatability) := by
    rw [← hreq]
    rcases Bool.eq_false_or_eq_true (m.checkWasRequested er.method er.url er.body) with
      hb | hb <;> simp [hb]
  constructor
  · intro htrue hc2
    rw [Mock.checkExpectation, if_pos (hcond.mpr hc2)] at htrue
    cases htrue
  · intro hn
    rw [Mock.checkExpectation, if_neg (fun hc => hn (hcond.mp hc))]

/-- Claim C5: `AssertExpectations` returns true exactly when every
registered expectation is satisfied — not ((never consumed and no
zero-difference match for it exists in the received log) or it still owes
uses).  Any unsatisfied expectation makes the assertion fail.  (The
per-expectation PASS/FAIL log lines are diagnostic strings, outside this
model.) -/
theorem c5_assert_expectations (m : Mock) :
    m.AssertExpectations = true ↔
      ∀ er ∈ m.ExpectedRequests,
        ¬((er.totalRequests = 0 ∧
            ¬∃ a ∈ m.Requests,
              a.diff { method := er.method, url := er.url, body := some er.body } = 0) ∨
          0 < er.repeatability) := by
  rw [Mock.AssertExpectations, beq_iff_eq, foldl_count_eq_zero]
  simp only [true_and]
  constructor
  · intro h er her
    exact (checkExpectation_eq_true_iff m er).mp (h er her)
  · intro h er her
    exact (checkExpectation_eq_true_iff m er).mpr (h er her)

/-- Claim C8: among two registered expectations with equal diff counts
against a received request, of which exactly one still has
`repeatability > 0`, `findClosestRequest` selects the one with remaining
uses, whichever of the two was registered first. -/
theorem c8_closest_prefers_remaining (e1 e2 : Request) (received : HttpRequest)
    (hdc : e1.diff received = e2.diff received) :
    (0 < e1.repeatability → e2.repeatability ≤ 0 →
      Mock.findClosestRequest { ExpectedRequests := [e1, e2] } received = some e1) ∧
    (0 < e2.repeatability → e1.repeatability ≤ 0 →
      Mock.findClosestRequest { ExpectedRequests := [e1, e2] } received = some e2) := by
  constructor
  · intro h1 h2
    have hcond : ¬(0 < e2.repeatability ∧ e1.repeatability ≤ 0) :=
      fun hc => absurd h1 (not_lt.mpr hc.2)
    simp [Mock.findClosestRequest, matchCandidate.isBetterMatchThan, hdc, hcond]
  · intro h1 h2
    have hcond : 0 < e2.repeatability ∧ e1.repeatability ≤ 0 := ⟨h1, h2⟩
    simp [Mock.findClosestRequest, matchCandidate.isBetterMatchThan, hdc, hcond]

/-- Witness for C8 at a concrete input: two identical expectations, the
first with one remaining use, the second with none. -/
theorem c8_closest_prefers_remaining_witness :
    Mock.findClosestRequest
      { ExpectedRequests :=
          [{ method := "GET", url := { path := "/w" }, repeatability := 1 },
           { method := "GET", url := { path := "/w" } }] }
      { method := "GET", url := { path := "/w" }, body := some "" } =
      some { method := "GET", url := { path := "/w" }, repeatability := 1 } :=
  (c8_closest_prefers_remaining
    { method := "GET", url := { path := "/w" }, repeatability := 1 }
    { method := "GET", url := { path := "/w" } }
    { method := "GET", url := { path := "/w" }, body := some "" } rfl).1
    (by decide) (by decide)

/-- The aggregate diff reads only the match criteria: updating the
repeatability and usage counters does not change it. -/
theorem diff_update (er : Request) (x y : Int) (received : HttpRequest) :
    ({ er with repeatability := x, totalRequests := y } : Request).diff received =
      er.diff received := rfl

/-- One successful consumption on a single-expectation mock: the usable
zero-difference expectation is found at index `0`, its repeatability
transition and `totalRequests` increment are applied, and the snapshot
(carrying a copy of the response) is appended to the log. -/
theorem requested_singleton_step (er : Request) (received : HttpRequest) (b : String)
    (reqs : List Request) (hbody : received.body = some b)
    (hdiff : er.diff received = 0) (hrep : -1 < er.repeatability) :
    Mock.Requested { ExpectedRequests := [er], Requests := reqs } received =
      .ok ({ ExpectedRequests :=
               [{ er with
                  repeatability :=
                    if er.repeatability = 1 then -1
                    else if 1 < er.repeatability then er.repeatability - 1
                    else er.repeatability,
                  totalRequests := er.totalRequests + 1 }],
             Requests := reqs ++ [{ method := received.method, url := received.url,
                                    body := b, response := er.response }] },
           er.response) := by
  have hfind : Mock.findExpectedRequest { ExpectedRequests := [er], Requests := reqs }
      received = (0, some er) := by
    rw [Mock.findExpectedRequest]
    show findExpectedRequestAux received [er] 0 none = (0, some er)
    rw [findExpectedRequestAux, if_neg (fun hne => hne hdiff), if_pos hrep]
  simp only [Mock.Requested, hbody, hfind]
  norm_num

/-- The exact-match search on a single exhausted zero-difference
expectation returns `(-1, that expectation)`. -/
theorem find_singleton_exhausted (x : Request) (received : HttpRequest)
    (reqs : List Request) (hdiff : x.diff received = 0)
    (hrep : ¬(-1 < x.repeatability)) :
    Mock.findExpectedRequest { ExpectedRequests := [x], Requests := reqs } received =
      (-1, some x) := by
  rw [Mock.findExpectedRequest]
  show findExpectedRequestAux received [x] 0 none = (-1, some x)
  rw [findExpectedRequestAux, if_neg (fun hne => hne hdiff), if_neg hrep]
  rfl

/-- Calling `Requested` on a single exhausted zero-difference expectation fails
with the exhausted-match error carrying the expectation's
`totalRequests`. -/
theorem requested_singleton_exhausted (x : Request) (received : HttpRequest) (b : String)
    (reqs : List Request) (hbody : received.body = some b)
    (hdiff : x.diff received = 0) (hrep : ¬(-1 < x.repeatability)) :
    Mock.Requested { ExpectedRequests := [x], Requests := reqs } received =
      .error (.exhausted x.totalRequests) := by
  have hfind := find_singleton_exhausted x received reqs hdiff hrep
  simp only [Mock.Requested, hbody, hfind]
  norm_num

/-- Iterating `k` successful consumptions on a single-expectation mock
with `repeatability = k > 0` drives the expectation to the exhausted
state `-1`, adds exactly `k` to `totalRequests`, and logs `k` identical
snapshots of the received request. -/
theorem iterate_countdown (received : HttpRequest) (b : String)
    (hbody : received.body = some b) :
    ∀ (k : Nat) (er : Request) (reqs : List Request),
      0 < k → er.diff received = 0 → er.repeatability = (k : Int) →
      iterateRequested received k { ExpectedRequests := [er], Requests := reqs } =
        .ok { ExpectedRequests := [{ er with repeatability := -1, totalRequests := er.totalRequests + (k : Int) }],
              Requests := reqs ++ List.replicate k { method := received.method, url := received.url, body := b, response := er.response } } := by
  intro k
  induction k with
  | zero => intro er reqs h0; exact absurd h0 (Nat.lt_irrefl 0)
  | succ k0 ih =>
    intro er reqs hpos hdiff hrep
    have hrep2 : -1 < er.repeatability := by omega
    have hstep := requested_singleton_step er received b reqs hbody hdiff hrep2
    by_cases hk0 : k0 = 0
    · subst hk0
      have h1 : er.repeatability = 1 := by exact_mod_cast hrep
      rw [iterateRequested, hstep]
      show iterateRequested received 0 _ = _
      rw [iterateRequested, if_pos h1]
      simp

    · have hgt : 1 < er.repeatability := by omega
      have hne1 : er.repeatability ≠ 1 := by omega
      have hdiff2 : ({ er with repeatability := er.repeatability - 1, totalRequests := er.totalRequests + 1 } : Request).diff received = 0 := by
        rw [diff_update]; exact hdiff
      have hrep3 : ({ er with repeatability := er.repeatability - 1, totalRequests := er.totalRequests + 1 } : Request).repeatability = (k0 : Int) := by
        show er.repeatability - 1 = (k0 : Int)
        omega
      have hiter := ih { er with repeatability := er.repeatability - 1, totalRequests := er.totalRequests + 1 }
        (reqs ++ [{ method := received.method, url := received.url, body := b, response := er.response }])
        (Nat.pos_of_ne_zero hk0) hdiff2 hrep3
      rw [iterateRequested, hstep]
      show iterateRequested received k0 _ = _
      rw [if_neg hne1, if_pos hgt, hiter]
      simp only [Except.ok.injEq, Mock.mk.injEq, List.cons.injEq, and_true, List.append_assoc,
        List.singleton_append, List.replicate_succ]
      have htot : er.totalRequests + 1 + (k0 : Int) = er.totalRequests + ((k0 + 1 : Nat) : Int) := by
        push_cast
        ring
      rw [htot]

/-- Claim C2: an expectation registered with `Times(N)` (`N > 0`) is
selected by the exact-match search on exactly its first `N` matching
consumptions; after them its repeatability is `-1` and `totalRequests`
is `N`; on the `(N+1)`th matching attempt it is excluded from exact
matching (`findExpectedRequest` returns index `-1`) and `Requested`
signals the exhausted-match fatal error carrying `totalUses = N`.  The
final clause is the single-consumption transition: `1 ↦ -1`,
`N>1 ↦ N-1`, `0 ↦ 0` (unlimited unchanged), and `totalRequests`
increments by exactly one. -/
theorem c2_times_countdown (N : Nat) (er : Request) (received : HttpRequest) (b : String)
    (hN : 0 < N) (hbody : received.body = some b) (hdiff : er.diff received = 0)
    (hrep : er.repeatability = (N : Int)) (htot : er.totalRequests = 0) :
    iterateRequested received N { ExpectedRequests := [er], Requests := [] } =
      .ok { ExpectedRequests := [{ er with repeatability := -1, totalRequests := (N : Int) }],
            Requests := List.replicate N { method := received.method, url := received.url, body := b, response := er.response } } ∧
    (Mock.findExpectedRequest
      { ExpectedRequests := [{ er with repeatability := -1, totalRequests := (N : Int) }],
        Requests := List.replicate N { method := received.method, url := received.url, body := b, response := er.response } }
      received).1 = -1 ∧
    Mock.Requested
      { ExpectedRequests := [{ er with repeatability := -1, totalRequests := (N : Int) }],
        Requests := List.replicate N { method := received.method, url := received.url, body := b, response := er.response } }
      received = .error (.exhausted (N : Int)) ∧
    (∀ (f : Request) (reqs : List Request), f.diff received = 0 → -1 < f.repeatability →
      Mock.Requested { ExpectedRequests := [f], Requests := reqs } received =
        .ok ({ ExpectedRequests := [{ f with repeatability := if f.repeatability = 1 then -1 else if 1 < f.repeatability then f.repeatability - 1 else f.repeatability, totalRequests := f.totalRequests + 1 }],
               Requests := reqs ++ [{ method := received.method, url := received.url, body := b, response := f.response }] },
             f.response)) := by
  have hdiffx : ({ er with repeatability := -1, totalRequests := (N : Int) } : Request).diff received = 0 := by
    rw [diff_update]; exact hdiff
  have hrepx : ¬(-1 < ({ er with repeatability := -1, totalRequests := (N : Int) } : Request).repeatability) := by
    show ¬((-1 : Int) < -1)
    omega
  refine ⟨?_, ?_, ?_, ?_⟩
  · have h := iterate_countdown received b hbody N er [] hN hdiff hrep
    rw [htot] at h
    simpa using h
  · rw [find_singleton_exhausted _ received _ hdiffx hrepx]
  · exact requested_singleton_exhausted _ received b _ hbody hdiffx hrepx
  · intro f reqs hfd hfr
    exact requested_singleton_step f received b reqs hbody hfd hfr

/-- Witness for C2 at a concrete input: `Times(2)` — two consumptions
drive the expectation to repeatability `-1` with `totalRequests = 2`,
and the third attempt fails exhausted carrying `2`. -/
theorem c2_times_countdown_witness :
    iterateRequested { method := "GET", url := { path := "/w2" }, body := some "" } 2
      { ExpectedRequests := [{ method := "GET", url := { path := "/w2" }, repeatability := 2 }], Requests := [] } =
      .ok { ExpectedRequests := [{ method := "GET", url := { path := "/w2" }, repeatability := -1, totalRequests := 2 }],
            Requests := List.replicate 2 { method := "GET", url := { path := "/w2" } } } ∧
    Mock.Requested
      { ExpectedRequests := [{ method := "GET", url := { path := "/w2" }, repeatability := -1, totalRequests := 2 }],
        Requests := List.replicate 2 { method := "GET", url := { path := "/w2" } } }
      { method := "GET", url := { path := "/w2" }, body := some "" } = .error (.exhausted 2) := by
  have h := c2_times_countdown 2 { method := "GET", url := { path := "/w2" }, repeatability := 2 }
    { method := "GET", url := { path := "/w2" }, body := some "" } "" (by decide) rfl (by decide)
    (by decide) rfl
  exact ⟨h.1, h.2.2.1⟩

/-- Claim C10: when the exact-match search selects an expectation to
which no response was ever attached, `Requested` still succeeds: it
applies the repeatability transition, increments `totalRequests`,
appends the received-request snapshot to the log, and returns a nil
response instead of signalling failure. -/
theorem c10_no_response_attached (m : Mock) (received : HttpRequest) (b : String)
    (i : Nat) (er : Request) (hbody : received.body = some b)
    (hfind : m.findExpectedRequest received = ((i : Int), some er))
    (hresp : er.response = none) :
    m.Requested received =
      .ok ({ ExpectedRequests := m.ExpectedRequests.set i { er with repeatability := if er.repeatability = 1 then -1 else if 1 < er.repeatability then er.repeatability - 1 else er.repeatability, totalRequests := er.totalRequests + 1 },
             Requests := m.Requests ++ [{ method := received.method, url := received.url, body := b }] },
           none) := by
  simp only [Mock.Requested, hbody, hfind]
  rw [if_neg (by omega : ¬((i : Int) < 0))]
  rw [hresp]
  norm_num

/-- Witness for C10 at a concrete input: a single matching expectation
without a response; the call succeeds and returns a nil response. -/
theorem c10_no_response_attached_witness :
    Mock.Requested { ExpectedRequests := [{ method := "GET", url := { path := "/r" } }] }
      { method := "GET", url := { path := "/r" }, body := some "" } =
      .ok ({ ExpectedRequests := [{ method := "GET", url := { path := "/r" }, totalRequests := 1 }],
             Requests := [{ method := "GET", url := { path := "/r" } }] },
           none) := by
  have h := c10_no_response_attached
    { ExpectedRequests := [{ method := "GET", url := { path := "/r" } }] }
    { method := "GET", url := { path := "/r" }, body := some "" } "" 0
    { method := "GET", url := { path := "/r" } } rfl rfl rfl
  exact h

/-- On a readable body, the stateful stream diff computes the same
difference count as the pure-model diff of the request's pure view:
the pure model is a faithful abbreviation of the stream model. -/
theorem diffS_fst_eq_diff (r : Request) (received : StreamHttpRequest) (s : String)
    (hbody : received.body = ⟨some s⟩) :
    (r.diffS received).1 = r.diff received.toPure := by
  simp [Request.diffS, Request.diffBodyS, SafeReadBody, BodyStream.readAll, hbody,
    Request.diff, Request.diffBody, StreamHttpRequest.toPure]

/-- Claim C6: an expectation whose body field is the `AnyBody` wildcard
sentinel passes the body comparator with zero differences for every
received request whose body can be read, regardless of the received
body's content, including an entirely empty one. -/
theorem c6_wildcard_body (r : Request) (received : HttpRequest) (b : String)
    (hany : r.body = AnyBody) (hread : received.body = some b) :
    r.diffBody received = 0 := by
  simp [Request.diffBody, Request.diffBodyBytes, hread, hany]

/-- Witness for C6 at a concrete input: the wildcard body against an
entirely empty received body. -/
theorem c6_wildcard_body_witness :
    ({ body := AnyBody } : Request).diffBody { body := some "" } = 0 :=
  c6_wildcard_body { body := AnyBody } { body := some "" } "" rfl rfl

/-- Claim C7: an expectation whose method is the `AnyMethod` wildcard
matches a received method `m` with zero method differences exactly when
`m` is non-empty, and an expectation whose declared method is the empty
string never matches, contributing one difference. -/
theorem c7_wildcard_method (r : Request) (received : HttpRequest) :
    (r.method = AnyMethod → (r.diffMethod received = 0 ↔ received.method ≠ "")) ∧
    (r.method = "" → r.diffMethod received = 1) := by
  constructor
  · intro h
    rw [Request.diffMethod, h]
    by_cases hm : received.method = ""
    · simp only [hm]
      simp [AnyMethod]
    · simp [hm]
  · intro h
    rw [Request.diffMethod, h]
    simp [AnyMethod]

/-- Witness for C7 at a concrete input: the wildcard against method
`GET`, and the empty declared method against method `GET`. -/
theorem c7_wildcard_method_witness :
    (({ method := AnyMethod } : Request).diffMethod { method := "GET" } = 0 ↔
      ("GET" : String) ≠ "") ∧
    ({ method := "" } : Request).diffMethod { method := "GET" } = 1 :=
  ⟨(c7_wildcard_method { method := AnyMethod } { method := "GET" }).1 rfl,
   (c7_wildcard_method { method := "" } { method := "GET" }).2 rfl⟩

/-- Claim C9: for a received request with a readable body, `SafeReadBody`
returns the full body bytes and replaces the stream with an equivalent
re-readable buffer, and after the aggregate diff (which runs the body
comparator) the received request's body stream reads again in full to
exactly the bytes originally sent. -/
theorem c9_body_rereadable (r : Request) (received : StreamHttpRequest) (s : String)
    (hbody : received.body = ⟨some s⟩) :
    SafeReadBody received = some (s, { received with body := ⟨some s⟩ }) ∧
    ((r.diffS received).2).body.readAll = some (s, ⟨some ""⟩) := by
  constructor
  · simp [SafeReadBody, hbody, BodyStream.readAll]
  · simp [Request.diffS, Request.diffBodyS, SafeReadBody, hbody, BodyStream.readAll]

/-- Witness for C9 at a concrete input: a stream holding `hello`. -/
theorem c9_body_rereadable_witness :
    SafeReadBody { method := "GET", body := ⟨some "hello"⟩ } =
      some ("hello", { method := "GET", body := ⟨some "hello"⟩ }) ∧
    ((({} : Request).diffS { method := "GET", body := ⟨some "hello"⟩ }).2).body.readAll =
      some ("hello", ⟨some ""⟩) :=
  c9_body_rereadable {} { method := "GET", body := ⟨some "hello"⟩ } "hello" rfl

/-- Claim C4 (code bug), evaluated at the failing input: for the
expectation URL parsed from `/p?` (which only sets `ForceQuery`) against
the received URL `/p`, scheme, host, path and fragment all agree and the
query comparator reports zero differences, yet `diffURL` reports one
difference — the structural comparison ignores only `RawQuery` and also
compares `ForceQuery` (and `Opaque`, `User`, `RawPath`, `OmitHost`,
`RawFragment`), contradicting the function's own doc comment. -/
theorem c4_diffURL_compares_documented_ignored_fields :
    let e : Request := { method := "GET", url := { path := "/p", forceQuery := true } }
    let hr : HttpRequest := { method := "GET", url := { path := "/p" }, body := some "" }
    e.url.scheme = hr.url.scheme ∧ e.url.host = hr.url.host ∧
    e.url.path = hr.url.path ∧ e.url.fragment = hr.url.fragment ∧
    e.diffQuery hr = 0 ∧ e.diffURL hr = 1 := by
  decide

/-- Counterexample to claim C1 as stated: a zero-difference expectation
whose repeatability is `-2` (set by `Times(-2)`) — so its remaining-use
counter is *not* `-1` — is nevertheless not returned with its index:
`findExpectedRequest` yields index `-1`. -/
theorem c1_counterexample :
    let e : Request := { method := "GET", url := { path := "/foo" }, repeatability := -2 }
    let hr : HttpRequest := { method := "GET", url := { path := "/foo" }, body := some "" }
    e.diff hr = 0 ∧ e.repeatability ≠ -1 ∧
    (Mock.findExpectedRequest { ExpectedRequests := [e] } hr).1 = -1 := by
  decide

/-- A run of the `findExpectedRequest` loop over expectations that all
diff non-zero returns `-1` with the accumulator unchanged. -/
theorem findAux_all_fail (actual : HttpRequest) :
    ∀ (l : List Request) (i : Int) (acc : Option Request),
      (∀ er ∈ l, er.diff actual ≠ 0) →
      findExpectedRequestAux actual l i acc = (-1, acc) := by
  intro l
  induction l with
  | nil => intro i acc _; rfl
  | cons er rest ih =>
    intro i acc h
    rw [findExpectedRequestAux, if_pos (h er (List.mem_cons_self er rest))]
    exact ih (i + 1) acc (fun x hx => h x (List.mem_cons_of_mem er hx))

/-- If position `j` holds the first zero-difference not-exhausted
expectation, the `findExpectedRequest` loop returns it with index
`i + j`. -/
theorem findAux_first_usable (actual : HttpRequest) :
    ∀ (l : List Request) (i : Int) (acc : Option Request) (j : Nat)
      (hj : j < l.length),
      (∀ k (hk : k < l.length), k < j →
        ¬(l[k].diff actual = 0 ∧ -1 < l[k].repeatability)) →
      l[j].diff actual = 0 → -1 < l[j].repeatability →
      findExpectedRequestAux actual l i acc = (i + (j : Int), some l[j]) := by
  intro l
  induction l with
  | nil => intro i acc j hj; exact absurd hj (Nat.not_lt_zero j)
  | cons er rest ih =>
    intro i acc j hj hnot hd hr
    cases j with
    | zero =>
      simp only [List.getElem_cons_zero] at hd hr ⊢
      rw [findExpectedRequestAux, if_neg (fun hne => hne hd), if_pos hr]
      simp
    | succ j0 =>
      have hj0 : j0 < rest.length := by simpa using hj
      simp only [List.getElem_cons_succ] at hd hr ⊢
      have hnot0 := hnot 0 (by simp) (Nat.succ_pos j0)
      simp only [List.getElem_cons_zero] at hnot0
      have hshift : ∀ k (hk : k < rest.length), k < j0 →
          ¬(rest[k].diff actual = 0 ∧ -1 < rest[k].repeatability) := by
        intro k hk hkj
        have := hnot (k + 1) (by simpa using Nat.succ_lt_succ hk) (Nat.succ_lt_succ hkj)
        simpa only [List.getElem_cons_succ] using this
      by_cases hdiff : er.diff actual = 0
      · have hrep : ¬(-1 < er.repeatability) := fun hr2 => hnot0 ⟨hdiff, hr2⟩
        rw [findExpectedRequestAux, if_neg (fun hne => hne hdiff), if_neg hrep]
        rw [ih (i + 1) (some er) j0 hj0 hshift hd hr]
        rw [Prod.mk.injEq]
        exact ⟨by push_cast; ring, rfl⟩
      · rw [findExpectedRequestAux, if_pos hdiff]
        rw [ih (i + 1) acc j0 hj0 hshift hd hr]
        rw [Prod.mk.injEq]
        exact ⟨by push_cast; ring, rfl⟩

/-- If some expectation diffs to zero but none is usable, the
`findExpectedRequest` loop returns `-1` together with the last
zero-difference expectation. -/
theorem findAux_exhausted (actual : HttpRequest) :
    ∀ (l : List Request) (i : Int) (acc : Option Request),
      (∀ er ∈ l, ¬(er.diff actual = 0 ∧ -1 < er.repeatability)) →
      (∃ er ∈ l, er.diff actual = 0) →
      ∃ j, ∃ hj : j < l.length,
        findExpectedRequestAux actual l i acc = (-1, some l[j]) ∧
        l[j].diff actual = 0 ∧
        ∀ k (hk : k < l.length), j < k → l[k].diff actual ≠ 0 := by
  intro l
  induction l with
  | nil =>
    rintro i acc _ ⟨er, hmem, _⟩
    cases hmem
  | cons er rest ih =>
    intro i acc hnone hex
    by_cases hrest : ∃ x ∈ rest, x.diff actual = 0
    · have hnone0 : ∀ x ∈ rest, ¬(x.diff actual = 0 ∧ -1 < x.repeatability) :=
        fun x hx => hnone x (List.mem_cons_of_mem er hx)
      by_cases hdiff : er.diff actual = 0
      · have hrep : ¬(-1 < er.repeatability) :=
          fun hr2 => hnone er (List.mem_cons_self er rest) ⟨hdiff, hr2⟩
        rcases ih (i + 1) (some er) hnone0 hrest with ⟨j, hj, heq, hdj, hafter⟩
        refine ⟨j + 1, by simpa using Nat.succ_lt_succ hj, ?_, ?_, ?_⟩
        · rw [findExpectedRequestAux, if_neg (fun hne => hne hdiff), if_neg hrep, heq]
          simp only [List.getElem_cons_succ]
        · simpa only [List.getElem_cons_succ] using hdj
        · intro k hk hjk
          cases k with
          | zero => omega
          | succ k0 =>
            have hk0 : k0 < rest.length := by simpa using hk
            simp only [List.getElem_cons_succ]
            exact hafter k0 hk0 (by omega)
      · rcases ih (i + 1) acc hnone0 hrest with ⟨j, hj, heq, hdj, hafter⟩
        refine ⟨j + 1, by simpa using Nat.succ_lt_succ hj, ?_, ?_, ?_⟩
        · rw [findExpectedRequestAux, if_pos hdiff, heq]
          simp only [List.getElem_cons_succ]
        · simpa only [List.getElem_cons_succ] using hdj
        · intro k hk hjk
          cases k with
          | zero => omega
          | succ k0 =>
            have hk0 : k0 < rest.length := by simpa using hk
            simp only [List.getElem_cons_succ]
            exact hafter k0 hk0 (by omega)
    · have hdiff : er.diff actual = 0 := by
        rcases hex with ⟨x, hx, hdx⟩
        rcases List.mem_cons.mp hx with h | h
        · exact h ▸ hdx
        · exact absurd ⟨x, h, hdx⟩ hrest
      have hrep : ¬(-1 < er.repeatability) :=
        fun hr2 => hnone er (List.mem_cons_self er rest) ⟨hdiff, hr2⟩
      refine ⟨0, by simp, ?_, by simpa using hdiff, ?_⟩
      · rw [findExpectedRequestAux, if_neg (fun hne => hne hdiff), if_neg hrep]
        rw [findAux_all_fail actual rest (i + 1) (some er)
          (fun x hx hdx => hrest ⟨x, hx, hdx⟩)]
        simp
      · intro k hk h0k
        cases k with
        | zero => omega
        | succ k0 =>
          have hk0 : k0 < rest.length := by simpa using hk
          simp only [List.getElem_cons_succ]
          exact fun hdx => hrest ⟨rest[k0], List.getElem_mem hk0, hdx⟩

/-- Claim C1, amended: `findExpectedRequest` scans expectations in
registration order, skipping those with a non-zero aggregate diff; it
immediately returns, with its index, the first zero-difference
expectation whose repeatability is greater than `-1` (not exhausted); if
zero-difference expectations exist but none has repeatability greater
than `-1`, it returns index `-1` together with the last zero-difference
expectation encountered; if none diffs to zero, it returns `(-1, nil)`. -/
theorem c1_find_expected_request (m : Mock) (actual : HttpRequest) :
    (∀ j (hj : j < m.ExpectedRequests.length),
      (∀ k (hk : k < m.ExpectedRequests.length), k < j →
        ¬(m.ExpectedRequests[k].diff actual = 0 ∧
          -1 < m.ExpectedRequests[k].repeatability)) →
      m.ExpectedRequests[j].diff actual = 0 →
      -1 < m.ExpectedRequests[j].repeatability →
      m.findExpectedRequest actual = ((j : Int), some m.ExpectedRequests[j])) ∧
    ((∀ er ∈ m.ExpectedRequests, ¬(er.diff actual = 0 ∧ -1 < er.repeatability)) →
      (∃ er ∈ m.ExpectedRequests, er.diff actual = 0) →
      ∃ j, ∃ hj : j < m.ExpectedRequests.length,
        m.findExpectedRequest actual = (-1, some m.ExpectedRequests[j]) ∧
        m.ExpectedRequests[j].diff actual = 0 ∧
        ∀ k (hk : k < m.ExpectedRequests.length), j < k →
          m.ExpectedRequests[k].diff actual ≠ 0) ∧
    ((∀ er ∈ m.ExpectedRequests, er.diff actual ≠ 0) →
      m.findExpectedRequest actual = (-1, none)) := by
  refine ⟨?_, ?_, ?_⟩
  · intro j hj hnot hd hr
    rw [Mock.findExpectedRequest,
      findAux_first_usable actual m.ExpectedRequests 0 none j hj hnot hd hr]
    rw [Prod.mk.injEq]
    exact ⟨by ring, rfl⟩
  · intro hnone hex
    exact findAux_exhausted actual m.ExpectedRequests 0 none hnone hex
  · intro h
    exact findAux_all_fail actual m.ExpectedRequests 0 none h

/-- Witness for the amended C1 at a concrete input: a single matching
expectation with two remaining uses is returned at index `0`. -/
theorem c1_find_expected_request_witness :
    Mock.findExpectedRequest
      { ExpectedRequests := [{ method := "GET", url := { path := "/w1" }, repeatability := 2 }] }
      { method := "GET", url := { path := "/w1" }, body := some "" } =
      (((0 : Nat) : Int),
        some { method := "GET", url := { path := "/w1" }, repeatability := 2 }) :=
  (c1_find_expected_request
      { ExpectedRequests := [{ method := "GET", url := { path := "/w1" }, repeatability := 2 }] }
      { method := "GET", url := { path := "/w1" }, body := some "" }).1
    0 (by decide) (fun k hk hk0 => absurd hk0 (Nat.not_lt_zero k)) (by decide) (by decide)

/-- Counterexample to claim C3 as stated: for the expectation query
`a=1&a=1` against the received query `a=1`, the two value lists for key
`a` are equal *as sets*, yet the query comparator reports one difference:
value multiplicity does cause a difference. -/
theorem c3_counterexample :
    let e : Request := { method := "GET", url := { path := "/p", rawQuery := "a=1&a=1" } }
    let hr : HttpRequest :=
      { method := "GET", url := { path := "/p", rawQuery := "a=1" }, body := some "" }
    valuesGet e.url.query "a" = some ["1", "1"] ∧
    valuesGet hr.url.query "a" = some ["1"] ∧
    (["1", "1"] : List String).toFinset = (["1"] : List String).toFinset ∧
    e.diffQuery hr = 1 := by
  decide

end Httpmock
